import Mathlib

/-!
Shallow embedding of the bare-metal FIR stereo driver
(src/software/baremetal/fir_stereo.c and fir_stereo.h).

MMIO is modelled as a word-addressed memory (a load from an address
returns the last 32-bit value stored to it) together with an ordered
log of bus events, matching the mock back-end of the specification's
testable-properties section.  Machine integers are Nat with explicit
reduction modulo 2 ^ 32 where the hardware truncates; the signed
16-bit Q1.15 coefficients are Int with explicit two's-complement
conversions at the register boundary.
-/

namespace FirStereo

/-- One MMIO bus event: a 32-bit volatile load or store recorded as
(operation, address, value). -/
inductive Ev where
  | rd : Nat → Nat → Ev
  | wr : Nat → Nat → Ev
deriving DecidableEq, Repr

/-- Machine state seen by the driver: the MMIO memory plus the ordered
event log. -/
@[ext]
structure St where
  mem : Nat → Nat
  log : List Ev

/-- Platform primitive Xil_Out32: infallible 32-bit volatile store. -/
def Xil_Out32 (s : St) (addr data : Nat) : St :=
  { mem := fun a => if a = addr then data % 2 ^ 32 else s.mem a,
    log := s.log ++ [Ev.wr addr (data % 2 ^ 32)] }

/-- Platform primitive Xil_In32: infallible 32-bit volatile load,
returning the 32-bit word last stored at the address. -/
def Xil_In32 (s : St) (addr : Nat) : St × Nat :=
  ({ s with log := s.log ++ [Ev.rd addr (s.mem addr % 2 ^ 32)] },
   s.mem addr % 2 ^ 32)

/-- Register offset of CTRL (fir_stereo.h). -/
def FIR_REG_CTRL_OFFSET : Nat := 0x00

/-- Register offset of the coefficient memory base (fir_stereo.h). -/
def FIR_MEM_COEFF_OFFSET : Nat := 0x10

/-- CTRL bit 0: ENABLE (fir_stereo.h). -/
def FIR_CTRL_ENABLE_BIT : Nat := 1

/-- CTRL bit 1: CLEAR (fir_stereo.h). -/
def FIR_CTRL_CLEAR_BIT : Nat := 2

/-- Bitwise complement on a 32-bit word, as C's tilde on u32. -/
def u32Not (x : Nat) : Nat := (2 ^ 32 - 1) ^^^ x

/-- Platform status constant XST_SUCCESS (xstatus.h). -/
def XST_SUCCESS : Int := 0

/-- Platform status constant XST_FAILURE (xstatus.h). -/
def XST_FAILURE : Int := 1

/-- Platform constant XIL_COMPONENT_IS_READY (xil_types.h). -/
def XIL_COMPONENT_IS_READY : Nat := 0x11111111

/-- Driver instance descriptor (fir_stereo.h). -/
structure FirStereo_Config where
  BaseAddress : Nat
  NumTaps : Nat
  IsReady : Nat
deriving DecidableEq, Repr

/-- Macro FIR_WriteReg: store at base plus offset. -/
def FIR_WriteReg (s : St) (baseAddr offset data : Nat) : St :=
  Xil_Out32 s (baseAddr + offset) data

/-- Macro FIR_ReadReg: load from base plus offset. -/
def FIR_ReadReg (s : St) (baseAddr offset : Nat) : St × Nat :=
  Xil_In32 s (baseAddr + offset)

/-- Address of the CTRL register of an instance. -/
def ctrlAddr (inst : FirStereo_Config) : Nat :=
  inst.BaseAddress + FIR_REG_CTRL_OFFSET

/-- Address of coefficient slot i of an instance. -/
def coeffAddr (inst : FirStereo_Config) (i : Nat) : Nat :=
  inst.BaseAddress + FIR_MEM_COEFF_OFFSET + i * 4

/-- Value returned by a CTRL read in state s. -/
def ctrlRead (inst : FirStereo_Config) (s : St) : Nat :=
  s.mem (ctrlAddr inst) % 2 ^ 32

/-- C conversion (u32)Value of a signed 16-bit value widened to 32 bits:
two's-complement reduction modulo 2 ^ 32. -/
def u32OfInt (v : Int) : Nat := (v % 2 ^ 32).toNat

/-- C conversion (s16) of a 32-bit word: truncate to the low 16 bits and
reinterpret as two's-complement. -/
def s16OfU32 (w : Nat) : Int :=
  if w % 2 ^ 16 < 2 ^ 15 then (w % 2 ^ 16 : Int) else (w % 2 ^ 16 : Int) - 2 ^ 16

/-- The RegVal computation of FIR_Enable: set or clear the ENABLE bit of
the value read from CTRL, preserving the other bits. -/
def enWrite (Enable RegVal : Nat) : Nat :=
  if Enable ≠ 0 then RegVal ||| FIR_CTRL_ENABLE_BIT
  else RegVal &&& u32Not FIR_CTRL_ENABLE_BIT

/-- FIR_Enable (fir_stereo.c): read-modify-write of CTRL setting or
clearing the ENABLE bit.  The C parameter is a u8 tested for nonzero. -/
def FIR_Enable (inst : FirStereo_Config) (Enable : Nat) (s : St) : St :=
  let p := FIR_ReadReg s inst.BaseAddress FIR_REG_CTRL_OFFSET
  FIR_WriteReg p.1 inst.BaseAddress FIR_REG_CTRL_OFFSET (enWrite Enable p.2)

/-- FIR_SoftReset (fir_stereo.c): read CTRL, write it with CLEAR set,
then write it with CLEAR masked off. -/
def FIR_SoftReset (inst : FirStereo_Config) (s : St) : St :=
  let p := FIR_ReadReg s inst.BaseAddress FIR_REG_CTRL_OFFSET
  let s1 := FIR_WriteReg p.1 inst.BaseAddress FIR_REG_CTRL_OFFSET
              (p.2 ||| FIR_CTRL_CLEAR_BIT)
  FIR_WriteReg s1 inst.BaseAddress FIR_REG_CTRL_OFFSET
    (p.2 &&& u32Not FIR_CTRL_CLEAR_BIT)

/-- FIR_SetCoeff (fir_stereo.c): out-of-range index is a silent no-op,
otherwise store the widened value at base + 0x10 + 4 * index. -/
def FIR_SetCoeff (inst : FirStereo_Config) (TapIndex : Nat) (Value : Int)
    (s : St) : St :=
  if TapIndex ≥ inst.NumTaps then s
  else
    let Addr := inst.BaseAddress + FIR_MEM_COEFF_OFFSET + TapIndex * 4
    FIR_WriteReg s Addr 0 (u32OfInt Value)

/-- FIR_GetCoeff (fir_stereo.c): out-of-range index returns 0 with no
MMIO access, otherwise load the word and truncate to signed 16-bit. -/
def FIR_GetCoeff (inst : FirStereo_Config) (TapIndex : Nat) (s : St) :
    St × Int :=
  if TapIndex ≥ inst.NumTaps then (s, 0)
  else
    let Addr := inst.BaseAddress + FIR_MEM_COEFF_OFFSET + TapIndex * 4
    let p := FIR_ReadReg s Addr 0
    (p.1, s16OfU32 p.2)

/-- FIR_Init (fir_stereo.c): fail on an absent descriptor, otherwise
populate the fields, disable the core and soft-reset it.  The result is
(status, descriptor contents, machine state). -/
def FIR_Init (InstancePtr : Option FirStereo_Config)
    (BaseAddress NumTaps : Nat) (s : St) :
    Int × Option FirStereo_Config × St :=
  match InstancePtr with
  | none => (XST_FAILURE, none, s)
  | some _ =>
    let inst : FirStereo_Config :=
      { BaseAddress := BaseAddress, NumTaps := NumTaps,
        IsReady := XIL_COMPONENT_IS_READY }
    let s1 := FIR_Enable inst 0 s
    let s2 := FIR_SoftReset inst s1
    (XST_SUCCESS, some inst, s2)

/-- The clear-unused-taps loop of FIR_LoadConfig: for i from the given
index up to NumTaps, FIR_SetCoeff(i, 0). -/
def clearLoop (inst : FirStereo_Config) (i : Nat) (s : St) : St :=
  if i < inst.NumTaps then clearLoop inst (i + 1) (FIR_SetCoeff inst i 0 s)
  else s
termination_by inst.NumTaps - i

/-- The load-new-coefficients loop of FIR_LoadConfig: for i from the
given index up to Limit, FIR_SetCoeff(i, CoeffArray[i]). -/
def loadLoop (inst : FirStereo_Config) (CoeffArray : List Int)
    (Limit i : Nat) (s : St) : St :=
  if i < Limit then
    loadLoop inst CoeffArray Limit (i + 1)
      (FIR_SetCoeff inst i (CoeffArray.getD i 0) s)
  else s
termination_by Limit - i

/-- FIR_LoadConfig (fir_stereo.c): sample ENABLE, disable, clear the
unused taps, load the new coefficients, restore ENABLE if it was set. -/
def FIR_LoadConfig (inst : FirStereo_Config) (CoeffArray : List Int)
    (Length : Nat) (s : St) : St :=
  let p := FIR_ReadReg s inst.BaseAddress FIR_REG_CTRL_OFFSET
  let WasEnabled : Nat := if p.2 &&& FIR_CTRL_ENABLE_BIT ≠ 0 then 1 else 0
  let s1 := FIR_Enable inst 0 p.1
  let Limit := if Length < inst.NumTaps then Length else inst.NumTaps
  let s2 := clearLoop inst Limit s1
  let s3 := loadLoop inst CoeffArray Limit 0 s2
  if WasEnabled ≠ 0 then FIR_Enable inst 1 s3 else s3

/-! ### Basic bounds and bit facts -/

lemma ctrlRead_lt (inst : FirStereo_Config) (s : St) : ctrlRead inst s < 2 ^ 32 :=
  Nat.mod_lt _ (by norm_num)

lemma u32Not_enable_eq : u32Not FIR_CTRL_ENABLE_BIT = 4294967294 := by decide

lemma u32Not_clear_eq : u32Not FIR_CTRL_CLEAR_BIT = 4294967293 := by decide

lemma u32OfInt_lt (v : Int) : u32OfInt v < 2 ^ 32 := by
  unfold u32OfInt
  have h2 : (0 : Int) ≤ v % 2 ^ 32 := Int.emod_nonneg v (by norm_num)
  have h1 : v % 2 ^ 32 < 2 ^ 32 := Int.emod_lt_of_pos v (by norm_num)
  omega

lemma enWrite_lt (Enable : Nat) {c : Nat} (h : c < 2 ^ 32) :
    enWrite Enable c < 2 ^ 32 := by
  unfold enWrite
  split
  · exact Nat.or_lt_two_pow h (by norm_num [FIR_CTRL_ENABLE_BIT])
  · exact Nat.and_lt_two_pow _ (by rw [u32Not_enable_eq]; norm_num)

lemma orClear_lt {c : Nat} (h : c < 2 ^ 32) :
    c ||| FIR_CTRL_CLEAR_BIT < 2 ^ 32 :=
  Nat.or_lt_two_pow h (by norm_num [FIR_CTRL_CLEAR_BIT])

lemma andNotClear_lt (c : Nat) : c &&& u32Not FIR_CTRL_CLEAR_BIT < 2 ^ 32 :=
  Nat.and_lt_two_pow _ (by rw [u32Not_clear_eq]; norm_num)

/-! ### State-level characterizations of the driver operations -/

lemma FIR_Enable_eq (inst : FirStereo_Config) (en : Nat) (s : St) :
    FIR_Enable inst en s =
      { mem := fun a => if a = ctrlAddr inst then enWrite en (ctrlRead inst s)
               else s.mem a,
        log := s.log ++ [Ev.rd (ctrlAddr inst) (ctrlRead inst s),
                         Ev.wr (ctrlAddr inst) (enWrite en (ctrlRead inst s))] } := by
  have hx : s.mem (inst.BaseAddress + FIR_REG_CTRL_OFFSET) % 2 ^ 32 < 2 ^ 32 :=
    Nat.mod_lt _ (by norm_num)
  have hmod := Nat.mod_eq_of_lt (enWrite_lt en hx)
  apply St.ext
  · funext a
    simp only [FIR_Enable, FIR_ReadReg, FIR_WriteReg, Xil_In32, Xil_Out32,
      ctrlAddr, ctrlRead, hmod]
  · simp only [FIR_Enable, FIR_ReadReg, FIR_WriteReg, Xil_In32, Xil_Out32,
      ctrlAddr, ctrlRead, hmod, List.append_assoc, List.cons_append,
      List.nil_append]

lemma FIR_SoftReset_eq (inst : FirStereo_Config) (s : St) :
    FIR_SoftReset inst s =
      { mem := fun a => if a = ctrlAddr inst
                 then ctrlRead inst s &&& u32Not FIR_CTRL_CLEAR_BIT
               else s.mem a,
        log := s.log ++ [Ev.rd (ctrlAddr inst) (ctrlRead inst s),
                         Ev.wr (ctrlAddr inst) (ctrlRead inst s ||| FIR_CTRL_CLEAR_BIT),
                         Ev.wr (ctrlAddr inst)
                           (ctrlRead inst s &&& u32Not FIR_CTRL_CLEAR_BIT)] } := by
  have hx : s.mem (inst.BaseAddress + FIR_REG_CTRL_OFFSET) % 2 ^ 32 < 2 ^ 32 :=
    Nat.mod_lt _ (by norm_num)
  have h1 := Nat.mod_eq_of_lt (orClear_lt hx)
  have h2 := Nat.mod_eq_of_lt
    (andNotClear_lt (s.mem (inst.BaseAddress + FIR_REG_CTRL_OFFSET) % 2 ^ 32))
  apply St.ext
  · funext a
    simp only [FIR_SoftReset, FIR_ReadReg, FIR_WriteReg, Xil_In32, Xil_Out32,
      ctrlAddr, ctrlRead, h1, h2]
    rcases eq_or_ne a (inst.BaseAddress + FIR_REG_CTRL_OFFSET) with h | h
    · simp [h]
    · simp [if_neg h]
  · simp only [FIR_SoftReset, FIR_ReadReg, FIR_WriteReg, Xil_In32, Xil_Out32,
      ctrlAddr, ctrlRead, h1, h2, List.append_assoc, List.cons_append,
      List.nil_append]

lemma FIR_SetCoeff_eq (inst : FirStereo_Config) {i : Nat} (v : Int) (s : St)
    (hi : i < inst.NumTaps) :
    FIR_SetCoeff inst i v s =
      { mem := fun a => if a = coeffAddr inst i then u32OfInt v else s.mem a,
        log := s.log ++ [Ev.wr (coeffAddr inst i) (u32OfInt v)] } := by
  have hni : ¬ i ≥ inst.NumTaps := by omega
  have hmod : u32OfInt v % 2 ^ 32 = u32OfInt v := Nat.mod_eq_of_lt (u32OfInt_lt v)
  apply St.ext
  · funext a
    simp only [FIR_SetCoeff, FIR_WriteReg, Xil_Out32, coeffAddr, hni, if_false,
      hmod, Nat.add_zero]
  · simp only [FIR_SetCoeff, FIR_WriteReg, Xil_Out32, coeffAddr, hni, if_false,
      hmod, Nat.add_zero]

lemma FIR_SetCoeff_oob (inst : FirStereo_Config) {i : Nat} (v : Int) (s : St)
    (hi : inst.NumTaps ≤ i) : FIR_SetCoeff inst i v s = s := by
  have h : i ≥ inst.NumTaps := hi
  simp only [FIR_SetCoeff, h, if_true]

lemma u32OfInt_zero : u32OfInt 0 = 0 := by decide

lemma ctrlAddr_ne_coeffAddr (inst : FirStereo_Config) (k : Nat) :
    ctrlAddr inst ≠ coeffAddr inst k := by
  simp only [ctrlAddr, coeffAddr, FIR_REG_CTRL_OFFSET, FIR_MEM_COEFF_OFFSET]
  omega

/-! ### The two loops of FIR_LoadConfig -/

lemma clearLoop_log (inst : FirStereo_Config) :
    ∀ (d i : Nat) (s : St), inst.NumTaps - i = d →
      (clearLoop inst i s).log =
        s.log ++ (List.range' i d).map (fun k => Ev.wr (coeffAddr inst k) 0) := by
  intro d
  induction d with
  | zero =>
    intro i s h
    have hni : ¬ i < inst.NumTaps := by omega
    rw [clearLoop, if_neg hni]
    simp
  | succ d ih =>
    intro i s h
    have hi : i < inst.NumTaps := by omega
    rw [clearLoop, if_pos hi, ih (i + 1) _ (by omega),
        FIR_SetCoeff_eq inst 0 s hi, List.range'_succ]
    simp [u32OfInt_zero]

lemma clearLoop_mem (inst : FirStereo_Config) :
    ∀ (d i : Nat) (s : St), inst.NumTaps - i = d →
      ∀ a, (∀ k, a ≠ coeffAddr inst k) →
        (clearLoop inst i s).mem a = s.mem a := by
  intro d
  induction d with
  | zero =>
    intro i s h a _
    have hni : ¬ i < inst.NumTaps := by omega
    rw [clearLoop, if_neg hni]
  | succ d ih =>
    intro i s h a ha
    have hi : i < inst.NumTaps := by omega
    rw [clearLoop, if_pos hi, ih (i + 1) _ (by omega) a ha,
        FIR_SetCoeff_eq inst 0 s hi]
    simp only [if_neg (ha i)]

lemma loadLoop_log (inst : FirStereo_Config) (arr : List Int) (Limit : Nat)
    (hL : Limit ≤ inst.NumTaps) :
    ∀ (d i : Nat) (s : St), Limit - i = d →
      (loadLoop inst arr Limit i s).log =
        s.log ++ (List.range' i d).map
          (fun k => Ev.wr (coeffAddr inst k) (u32OfInt (arr.getD k 0))) := by
  intro d
  induction d with
  | zero =>
    intro i s h
    have hni : ¬ i < Limit := by omega
    rw [loadLoop, if_neg hni]
    simp
  | succ d ih =>
    intro i s h
    have hi : i < Limit := by omega
    have hiN : i < inst.NumTaps := by omega
    rw [loadLoop, if_pos hi, ih (i + 1) _ (by omega),
        FIR_SetCoeff_eq inst (arr.getD i 0) s hiN, List.range'_succ]
    simp

lemma loadLoop_mem (inst : FirStereo_Config) (arr : List Int) (Limit : Nat)
    (hL : Limit ≤ inst.NumTaps) :
    ∀ (d i : Nat) (s : St), Limit - i = d →
      ∀ a, (∀ k, a ≠ coeffAddr inst k) →
        (loadLoop inst arr Limit i s).mem a = s.mem a := by
  intro d
  induction d with
  | zero =>
    intro i s h a _
    have hni : ¬ i < Limit := by omega
    rw [loadLoop, if_neg hni]
  | succ d ih =>
    intro i s h a ha
    have hi : i < Limit := by omega
    have hiN : i < inst.NumTaps := by omega
    rw [loadLoop, if_pos hi, ih (i + 1) _ (by omega) a ha,
        FIR_SetCoeff_eq inst (arr.getD i 0) s hiN]
    simp only [if_neg (ha i)]

/-! ### Characterization of FIR_LoadConfig -/

lemma FIR_LoadConfig_split (inst : FirStereo_Config) (arr : List Int)
    (L : Nat) (s : St) :
    FIR_LoadConfig inst arr L s =
      if ctrlRead inst s &&& FIR_CTRL_ENABLE_BIT ≠ 0 then
        FIR_Enable inst 1 (loadLoop inst arr (min L inst.NumTaps) 0
          (clearLoop inst (min L inst.NumTaps) (FIR_Enable inst 0
            { s with log := s.log ++ [Ev.rd (ctrlAddr inst) (ctrlRead inst s)] })))
      else
        loadLoop inst arr (min L inst.NumTaps) 0
          (clearLoop inst (min L inst.NumTaps) (FIR_Enable inst 0
            { s with log := s.log ++ [Ev.rd (ctrlAddr inst) (ctrlRead inst s)] })) := by
  have hmin : (if L < inst.NumTaps then L else inst.NumTaps) = min L inst.NumTaps := by
    split <;> omega
  simp only [FIR_LoadConfig, FIR_ReadReg, Xil_In32, ctrlAddr, ctrlRead, hmin]
  by_cases hen :
      s.mem (inst.BaseAddress + FIR_REG_CTRL_OFFSET) % 2 ^ 32 &&& FIR_CTRL_ENABLE_BIT ≠ 0 <;>
    simp [hen]

lemma enWrite0_mod (inst : FirStereo_Config) (s : St) :
    enWrite 0 (ctrlRead inst s) % 2 ^ 32 = enWrite 0 (ctrlRead inst s) :=
  Nat.mod_eq_of_lt (enWrite_lt 0 (ctrlRead_lt inst s))

lemma FIR_Enable_first (inst : FirStereo_Config) (s : St) :
    FIR_Enable inst 0 { s with log := s.log ++ [Ev.rd (ctrlAddr inst) (ctrlRead inst s)] } =
      { mem := fun a => if a = ctrlAddr inst then enWrite 0 (ctrlRead inst s)
               else s.mem a,
        log := s.log ++ [Ev.rd (ctrlAddr inst) (ctrlRead inst s),
                         Ev.rd (ctrlAddr inst) (ctrlRead inst s),
                         Ev.wr (ctrlAddr inst) (enWrite 0 (ctrlRead inst s))] } := by
  rw [FIR_Enable_eq]
  apply St.ext
  · rfl
  · simp [ctrlRead]

lemma FIR_LoadConfig_log (inst : FirStereo_Config) (arr : List Int)
    (L : Nat) (s : St) :
    (FIR_LoadConfig inst arr L s).log =
      s.log ++
      [Ev.rd (ctrlAddr inst) (ctrlRead inst s),
       Ev.rd (ctrlAddr inst) (ctrlRead inst s),
       Ev.wr (ctrlAddr inst) (enWrite 0 (ctrlRead inst s))] ++
      (List.range' (min L inst.NumTaps) (inst.NumTaps - min L inst.NumTaps)).map
        (fun k => Ev.wr (coeffAddr inst k) 0) ++
      (List.range' 0 (min L inst.NumTaps)).map
        (fun k => Ev.wr (coeffAddr inst k) (u32OfInt (arr.getD k 0))) ++
      (if ctrlRead inst s &&& FIR_CTRL_ENABLE_BIT ≠ 0 then
        [Ev.rd (ctrlAddr inst) (enWrite 0 (ctrlRead inst s)),
         Ev.wr (ctrlAddr inst) (enWrite 1 (enWrite 0 (ctrlRead inst s)))]
       else ([] : List Ev)) := by
  have hmle : min L inst.NumTaps ≤ inst.NumTaps := Nat.min_le_right L _
  rw [FIR_LoadConfig_split, FIR_Enable_first]
  set s1 : St :=
    { mem := fun a => if a = ctrlAddr inst then enWrite 0 (ctrlRead inst s)
             else s.mem a,
      log := s.log ++ [Ev.rd (ctrlAddr inst) (ctrlRead inst s),
                       Ev.rd (ctrlAddr inst) (ctrlRead inst s),
                       Ev.wr (ctrlAddr inst) (enWrite 0 (ctrlRead inst s))] } with hs1
  have h2log := clearLoop_log inst (inst.NumTaps - min L inst.NumTaps)
    (min L inst.NumTaps) s1 rfl
  have h2mem := clearLoop_mem inst (inst.NumTaps - min L inst.NumTaps)
    (min L inst.NumTaps) s1 rfl (ctrlAddr inst) (ctrlAddr_ne_coeffAddr inst)
  have h3log := loadLoop_log inst arr (min L inst.NumTaps) hmle
    (min L inst.NumTaps) 0 (clearLoop inst (min L inst.NumTaps) s1) rfl
  have h3mem := loadLoop_mem inst arr (min L inst.NumTaps) hmle
    (min L inst.NumTaps) 0 (clearLoop inst (min L inst.NumTaps) s1) rfl
    (ctrlAddr inst) (ctrlAddr_ne_coeffAddr inst)
  have hcr3 : ctrlRead inst
      (loadLoop inst arr (min L inst.NumTaps) 0 (clearLoop inst (min L inst.NumTaps) s1)) =
      enWrite 0 (ctrlRead inst s) := by
    show (loadLoop inst arr (min L inst.NumTaps) 0
      (clearLoop inst (min L inst.NumTaps) s1)).mem (ctrlAddr inst) % 2 ^ 32 =
      enWrite 0 (ctrlRead inst s)
    rw [h3mem, h2mem, hs1]
    show (if ctrlAddr inst = ctrlAddr inst then enWrite 0 (ctrlRead inst s)
      else s.mem (ctrlAddr inst)) % 2 ^ 32 = enWrite 0 (ctrlRead inst s)
    rw [if_pos rfl]
    exact Nat.mod_eq_of_lt (enWrite_lt 0 (ctrlRead_lt inst s))
  by_cases hen : ctrlRead inst s &&& FIR_CTRL_ENABLE_BIT ≠ 0
  · rw [if_pos hen, if_pos hen, FIR_Enable_eq, hcr3, h3log, h2log, hs1]
  · rw [if_neg hen, if_neg hen, h3log, h2log, hs1]
    simp

lemma FIR_LoadConfig_mem_ctrl (inst : FirStereo_Config) (arr : List Int)
    (L : Nat) (s : St) :
    (FIR_LoadConfig inst arr L s).mem (ctrlAddr inst) =
      if ctrlRead inst s &&& FIR_CTRL_ENABLE_BIT ≠ 0 then
        enWrite 1 (enWrite 0 (ctrlRead inst s))
      else enWrite 0 (ctrlRead inst s) := by
  have hmle : min L inst.NumTaps ≤ inst.NumTaps := Nat.min_le_right L _
  rw [FIR_LoadConfig_split, FIR_Enable_first]
  set s1 : St :=
    { mem := fun a => if a = ctrlAddr inst then enWrite 0 (ctrlRead inst s)
             else s.mem a,
      log := s.log ++ [Ev.rd (ctrlAddr inst) (ctrlRead inst s),
                       Ev.rd (ctrlAddr inst) (ctrlRead inst s),
                       Ev.wr (ctrlAddr inst) (enWrite 0 (ctrlRead inst s))] } with hs1
  have h2mem := clearLoop_mem inst (inst.NumTaps - min L inst.NumTaps)
    (min L inst.NumTaps) s1 rfl (ctrlAddr inst) (ctrlAddr_ne_coeffAddr inst)
  have h3mem := loadLoop_mem inst arr (min L inst.NumTaps) hmle
    (min L inst.NumTaps) 0 (clearLoop inst (min L inst.NumTaps) s1) rfl
    (ctrlAddr inst) (ctrlAddr_ne_coeffAddr inst)
  have hcr3 : ctrlRead inst
      (loadLoop inst arr (min L inst.NumTaps) 0 (clearLoop inst (min L inst.NumTaps) s1)) =
      enWrite 0 (ctrlRead inst s) := by
    show (loadLoop inst arr (min L inst.NumTaps) 0
      (clearLoop inst (min L inst.NumTaps) s1)).mem (ctrlAddr inst) % 2 ^ 32 =
      enWrite 0 (ctrlRead inst s)
    rw [h3mem, h2mem, hs1]
    show (if ctrlAddr inst = ctrlAddr inst then enWrite 0 (ctrlRead inst s)
      else s.mem (ctrlAddr inst)) % 2 ^ 32 = enWrite 0 (ctrlRead inst s)
    rw [if_pos rfl]
    exact Nat.mod_eq_of_lt (enWrite_lt 0 (ctrlRead_lt inst s))
  by_cases hen : ctrlRead inst s &&& FIR_CTRL_ENABLE_BIT ≠ 0
  · rw [if_pos hen, if_pos hen, FIR_Enable_eq, hcr3]
    simp
  · rw [if_neg hen, if_neg hen, h3mem, h2mem, hs1]
    simp

/-! ### Bit facts about the register constants -/

lemma testBit_masks {j : Nat} (h2 : 2 <= j) (h32 : j < 32) :
    Nat.testBit FIR_CTRL_ENABLE_BIT j = false ∧
    Nat.testBit FIR_CTRL_CLEAR_BIT j = false ∧
    Nat.testBit (u32Not FIR_CTRL_ENABLE_BIT) j = true ∧
    Nat.testBit (u32Not FIR_CTRL_CLEAR_BIT) j = true := by
  interval_cases j <;> exact (by decide)

lemma testBit_mod32 (m j : Nat) (h : j < 32) :
    (m % 2 ^ 32).testBit j = m.testBit j := by
  rw [Nat.testBit_mod_two_pow]
  simp [h]

lemma enWrite_testBit_high (en c : Nat) {j : Nat} (h2 : 2 <= j) (h32 : j < 32) :
    (enWrite en c).testBit j = c.testBit j := by
  obtain ⟨he, _, hne, _⟩ := testBit_masks h2 h32
  unfold enWrite
  split
  · rw [Nat.testBit_or, he, Bool.or_false]
  · rw [Nat.testBit_and, hne, Bool.and_true]

lemma orClear_testBit_high (c : Nat) {j : Nat} (h2 : 2 <= j) (h32 : j < 32) :
    (c ||| FIR_CTRL_CLEAR_BIT).testBit j = c.testBit j := by
  obtain ⟨_, hc, _, _⟩ := testBit_masks h2 h32
  rw [Nat.testBit_or, hc, Bool.or_false]

lemma andNotClear_testBit_high (c : Nat) {j : Nat} (h2 : 2 <= j) (h32 : j < 32) :
    (c &&& u32Not FIR_CTRL_CLEAR_BIT).testBit j = c.testBit j := by
  obtain ⟨_, _, _, hnc⟩ := testBit_masks h2 h32
  rw [Nat.testBit_and, hnc, Bool.and_true]

lemma andNotClear_testBit_zero (c : Nat) :
    (c &&& u32Not FIR_CTRL_CLEAR_BIT).testBit 0 = c.testBit 0 := by
  rw [Nat.testBit_and, (by decide : (u32Not FIR_CTRL_CLEAR_BIT).testBit 0 = true),
      Bool.and_true]

lemma andNotClear_testBit_one (c : Nat) :
    (c &&& u32Not FIR_CTRL_CLEAR_BIT).testBit 1 = false := by
  rw [Nat.testBit_and, (by decide : (u32Not FIR_CTRL_CLEAR_BIT).testBit 1 = false),
      Bool.and_false]

lemma enWrite_testBit_one (en c : Nat) :
    (enWrite en c).testBit 1 = c.testBit 1 := by
  unfold enWrite
  split
  · rw [Nat.testBit_or, (by decide : Nat.testBit FIR_CTRL_ENABLE_BIT 1 = false),
        Bool.or_false]
  · rw [Nat.testBit_and, (by decide : (u32Not FIR_CTRL_ENABLE_BIT).testBit 1 = true),
        Bool.and_true]

lemma enWrite_one_testBit_zero (c : Nat) :
    (enWrite 1 c).testBit 0 = true := by
  unfold enWrite
  rw [if_pos (by decide : (1 : Nat) ≠ 0), Nat.testBit_or,
      (by decide : Nat.testBit FIR_CTRL_ENABLE_BIT 0 = true), Bool.or_true]

lemma enWrite_idem (en c : Nat) : enWrite en (enWrite en c) = enWrite en c := by
  unfold enWrite
  split
  · apply Nat.eq_of_testBit_eq
    intro i
    simp only [Nat.testBit_or]
    cases c.testBit i <;> cases (FIR_CTRL_ENABLE_BIT).testBit i <;> rfl
  · apply Nat.eq_of_testBit_eq
    intro i
    simp only [Nat.testBit_and]
    cases c.testBit i <;> cases (u32Not FIR_CTRL_ENABLE_BIT).testBit i <;> rfl

/-! ### Characterization of FIR_Init on a present descriptor -/

/-- Descriptor contents produced by a successful FIR_Init. -/
def initCfg (b n : Nat) : FirStereo_Config :=
  { BaseAddress := b, NumTaps := n, IsReady := XIL_COMPONENT_IS_READY }

lemma FIR_Init_some_eq (old : FirStereo_Config) (b n : Nat) (s : St) :
    FIR_Init (some old) b n s =
      (XST_SUCCESS, some (initCfg b n),
       FIR_SoftReset (initCfg b n) (FIR_Enable (initCfg b n) 0 s)) := rfl

lemma FIR_Init_state (old : FirStereo_Config) (b n : Nat) (s : St) :
    ((FIR_Init (some old) b n s).2.2).log =
      s.log ++
      [Ev.rd (ctrlAddr (initCfg b n)) (ctrlRead (initCfg b n) s),
       Ev.wr (ctrlAddr (initCfg b n)) (enWrite 0 (ctrlRead (initCfg b n) s)),
       Ev.rd (ctrlAddr (initCfg b n)) (enWrite 0 (ctrlRead (initCfg b n) s)),
       Ev.wr (ctrlAddr (initCfg b n))
         (enWrite 0 (ctrlRead (initCfg b n) s) ||| FIR_CTRL_CLEAR_BIT),
       Ev.wr (ctrlAddr (initCfg b n))
         (enWrite 0 (ctrlRead (initCfg b n) s) &&& u32Not FIR_CTRL_CLEAR_BIT)] ∧
    ((FIR_Init (some old) b n s).2.2).mem (ctrlAddr (initCfg b n)) =
      enWrite 0 (ctrlRead (initCfg b n) s) &&& u32Not FIR_CTRL_CLEAR_BIT := by
  rw [show ((FIR_Init (some old) b n s).2.2) =
    FIR_SoftReset (initCfg b n) (FIR_Enable (initCfg b n) 0 s) from rfl]
  rw [FIR_Enable_eq, FIR_SoftReset_eq]
  have hcr : ctrlRead (initCfg b n)
      ({ mem := fun a => if a = ctrlAddr (initCfg b n)
                 then enWrite 0 (ctrlRead (initCfg b n) s) else s.mem a,
         log := s.log ++ [Ev.rd (ctrlAddr (initCfg b n)) (ctrlRead (initCfg b n) s),
                          Ev.wr (ctrlAddr (initCfg b n))
                            (enWrite 0 (ctrlRead (initCfg b n) s))] } : St) =
      enWrite 0 (ctrlRead (initCfg b n) s) := by
    show (if ctrlAddr (initCfg b n) = ctrlAddr (initCfg b n)
      then enWrite 0 (ctrlRead (initCfg b n) s)
      else s.mem (ctrlAddr (initCfg b n))) % 2 ^ 32 =
      enWrite 0 (ctrlRead (initCfg b n) s)
    rw [if_pos rfl]
    exact Nat.mod_eq_of_lt (enWrite_lt 0 (ctrlRead_lt (initCfg b n) s))
  rw [hcr]
  constructor
  · simp
  · simp

/-! ### Concrete fixtures for witnesses and counterexamples -/

/-- All-zero MMIO memory with an empty log. -/
def st0 : St := { mem := fun _ => 0, log := [] }

/-- Memory holding 1 everywhere (CTRL reads as enabled), empty log. -/
def st1 : St := { mem := fun _ => 1, log := [] }

/-- Memory holding 4 everywhere (a reserved CTRL bit set), empty log. -/
def st4 : St := { mem := fun _ => 4, log := [] }

/-- Ready descriptor at base 0 with 8 taps. -/
def d8 : FirStereo_Config :=
  { BaseAddress := 0, NumTaps := 8, IsReady := XIL_COMPONENT_IS_READY }

/-- Ready descriptor at base 0 with 4 taps. -/
def d4 : FirStereo_Config :=
  { BaseAddress := 0, NumTaps := 4, IsReady := XIL_COMPONENT_IS_READY }

/-- Ready descriptor at base 0 with 2 taps. -/
def d2 : FirStereo_Config :=
  { BaseAddress := 0, NumTaps := 2, IsReady := XIL_COMPONENT_IS_READY }

/-! ### Auxiliary facts used by the claim theorems -/

lemma FIR_Enable_mem_ctrl (inst : FirStereo_Config) (en : Nat) (s : St) :
    (FIR_Enable inst en s).mem (ctrlAddr inst) = enWrite en (ctrlRead inst s) := by
  rw [FIR_Enable_eq]
  simp

lemma s16OfU32_u32OfInt {v : Int} (hlo : -32768 ≤ v) (hhi : v < 32768) :
    s16OfU32 (u32OfInt v) = v := by
  unfold s16OfU32 u32OfInt
  have e1 : (2 : Int) ^ 32 = 4294967296 := by norm_num
  have e2 : (2 : Nat) ^ 16 = 65536 := by norm_num
  have e3 : (2 : Nat) ^ 15 = 32768 := by norm_num
  have e4 : (2 : Int) ^ 16 = 65536 := by norm_num
  rw [e1, e2, e3, e4]
  split <;> omega

lemma FIR_Enable_twice_mem (inst : FirStereo_Config) (en : Nat) (s : St) :
    ∀ a, (FIR_Enable inst en (FIR_Enable inst en s)).mem a =
      (FIR_Enable inst en s).mem a := by
  intro a
  have hcr1 : ctrlRead inst (FIR_Enable inst en s) = enWrite en (ctrlRead inst s) := by
    show (FIR_Enable inst en s).mem (ctrlAddr inst) % 2 ^ 32 = _
    rw [FIR_Enable_mem_ctrl]
    exact Nat.mod_eq_of_lt (enWrite_lt en (ctrlRead_lt inst s))
  rcases eq_or_ne a (ctrlAddr inst) with h | h
  · subst h
    rw [FIR_Enable_mem_ctrl, FIR_Enable_mem_ctrl, hcr1, enWrite_idem]
  · rw [FIR_Enable_eq inst en (FIR_Enable inst en s), FIR_Enable_eq inst en s]
    simp [if_neg h]

/-! ### Claims -/

/-- Claim C4: on a ready descriptor with tap count N, for every index i < N
and every signed 16-bit Q1.15 value v, FIR_SetCoeff(i, v) followed by
FIR_GetCoeff(i) returns exactly v, under the MMIO model where a load from an
address returns the last value stored to it. -/
theorem fir_C4_set_get_roundtrip (inst : FirStereo_Config) (i : Nat) (v : Int)
    (s : St) (hready : inst.IsReady = XIL_COMPONENT_IS_READY)
    (hi : i < inst.NumTaps) (hlo : -32768 ≤ v) (hhi : v < 32768) :
    (FIR_GetCoeff inst i (FIR_SetCoeff inst i v s)).2 = v := by
  rw [FIR_SetCoeff_eq inst v s hi]
  have hni : ¬ i ≥ inst.NumTaps := by omega
  simp only [FIR_GetCoeff, hni, if_false, FIR_ReadReg, Xil_In32, coeffAddr,
    Nat.add_zero, if_pos rfl, if_true, eq_self_iff_true]
  rw [Nat.mod_eq_of_lt (u32OfInt_lt v)]
  exact s16OfU32_u32OfInt hlo hhi

/-- Witness for C4: writing -16384 to tap 3 of an 8-tap descriptor and
reading it back returns -16384. -/
theorem fir_C4_set_get_roundtrip_witness :
    (FIR_GetCoeff d8 3 (FIR_SetCoeff d8 3 (-16384) st0)).2 = -16384 :=
  fir_C4_set_get_roundtrip d8 3 (-16384) st0 (by decide) (by decide)
    (by decide) (by decide)

/-- Claim C5: for every index at or beyond the tap count, FIR_SetCoeff is a
complete no-op (no MMIO access, state unchanged) and FIR_GetCoeff returns 0
with at most one MMIO read (in fact none). -/
theorem fir_C5_out_of_range (inst : FirStereo_Config) (i : Nat) (v : Int)
    (s : St) (hi : inst.NumTaps ≤ i) :
    FIR_SetCoeff inst i v s = s ∧
    (FIR_GetCoeff inst i s).1 = s ∧
    (FIR_GetCoeff inst i s).2 = 0 ∧
    (FIR_GetCoeff inst i s).1.log.length ≤ s.log.length + 1 := by
  have h : i ≥ inst.NumTaps := hi
  refine ⟨?_, ?_, ?_, ?_⟩ <;> simp [FIR_SetCoeff, FIR_GetCoeff, h]

/-- Witness for C5 at index 8 of an 8-tap descriptor. -/
theorem fir_C5_out_of_range_witness :
    FIR_SetCoeff d8 8 7 st0 = st0 ∧
    (FIR_GetCoeff d8 8 st0).1 = st0 ∧
    (FIR_GetCoeff d8 8 st0).2 = 0 ∧
    (FIR_GetCoeff d8 8 st0).1.log.length ≤ st0.log.length + 1 :=
  fir_C5_out_of_range d8 8 7 st0 (by decide)

/-- Claim C6: FIR_SoftReset performs exactly one CTRL read followed by two
CTRL writes (CLEAR set then CLEAR cleared, other bits carried from the
read), touches no other address (so coefficient memory is unchanged),
preserves the ENABLE bit of CTRL, and from CTRL = 1 the two written values
are 3 then 1. -/
theorem fir_C6_softreset_shape (inst : FirStereo_Config) (s : St) :
    (FIR_SoftReset inst s).log =
      s.log ++ [Ev.rd (ctrlAddr inst) (ctrlRead inst s),
                Ev.wr (ctrlAddr inst) (ctrlRead inst s ||| FIR_CTRL_CLEAR_BIT),
                Ev.wr (ctrlAddr inst)
                  (ctrlRead inst s &&& u32Not FIR_CTRL_CLEAR_BIT)] ∧
    (∀ a, a ≠ ctrlAddr inst → (FIR_SoftReset inst s).mem a = s.mem a) ∧
    ((FIR_SoftReset inst s).mem (ctrlAddr inst)).testBit 0 =
      (s.mem (ctrlAddr inst)).testBit 0 ∧
    (s.mem (ctrlAddr inst) = 1 →
      (FIR_SoftReset inst s).log =
        s.log ++ [Ev.rd (ctrlAddr inst) 1, Ev.wr (ctrlAddr inst) 3,
                  Ev.wr (ctrlAddr inst) 1]) := by
  refine ⟨by rw [FIR_SoftReset_eq], ?_, ?_, ?_⟩
  · intro a ha
    rw [FIR_SoftReset_eq]
    simp [if_neg ha]
  · rw [FIR_SoftReset_eq]
    show (if ctrlAddr inst = ctrlAddr inst
      then ctrlRead inst s &&& u32Not FIR_CTRL_CLEAR_BIT
      else s.mem (ctrlAddr inst)).testBit 0 = (s.mem (ctrlAddr inst)).testBit 0
    rw [if_pos rfl, andNotClear_testBit_zero]
    exact testBit_mod32 _ 0 (by norm_num)
  · intro h1
    have hc : ctrlRead inst s = 1 := by
      unfold ctrlRead
      rw [h1]
      norm_num
    rw [FIR_SoftReset_eq]
    show s.log ++ _ = _
    rw [hc, (by decide : (1 : Nat) ||| FIR_CTRL_CLEAR_BIT = 3),
        (by decide : (1 : Nat) &&& u32Not FIR_CTRL_CLEAR_BIT = 1)]

/-- Witness for C6 on an 8-tap descriptor with CTRL initially 1: the frame
conditions and the concrete 3-then-1 write sequence. -/
theorem fir_C6_softreset_shape_witness :
    (FIR_SoftReset d8 st1).mem 5 = st1.mem 5 ∧
    (FIR_SoftReset d8 st1).log =
      st1.log ++ [Ev.rd (ctrlAddr d8) 1, Ev.wr (ctrlAddr d8) 3,
                  Ev.wr (ctrlAddr d8) 1] :=
  ⟨(fir_C6_softreset_shape d8 st1).2.1 5 (by decide),
   (fir_C6_softreset_shape d8 st1).2.2.2 (by decide)⟩

/-- Claim C7: FIR_Enable is an idempotent read-modify-write of CTRL bit 0:
calling it twice with the same argument leaves the memory exactly as one
call does; after enable(1) twice ENABLE is set; and bits 2..31 of the
pre-call CTRL value are preserved. -/
theorem fir_C7_enable_idem (inst : FirStereo_Config) (s : St) (b : Nat) :
    (∀ a, (FIR_Enable inst b (FIR_Enable inst b s)).mem a =
      (FIR_Enable inst b s).mem a) ∧
    ((FIR_Enable inst 1 (FIR_Enable inst 1 s)).mem (ctrlAddr inst)).testBit 0 =
      true ∧
    (∀ j, 2 ≤ j → j < 32 →
      ((FIR_Enable inst 1 (FIR_Enable inst 1 s)).mem (ctrlAddr inst)).testBit j =
        (s.mem (ctrlAddr inst)).testBit j) := by
  refine ⟨FIR_Enable_twice_mem inst b s, ?_, ?_⟩
  · rw [FIR_Enable_twice_mem inst 1 s, FIR_Enable_mem_ctrl]
    exact enWrite_one_testBit_zero _
  · intro j h2 h32
    rw [FIR_Enable_twice_mem inst 1 s, FIR_Enable_mem_ctrl,
        enWrite_testBit_high 1 _ h2 h32]
    exact testBit_mod32 _ j h32

/-- Witness for C7 on an 8-tap descriptor with CTRL initially 4: double
enable equals single enable at the CTRL address and bit 2 is preserved. -/
theorem fir_C7_enable_idem_witness :
    (FIR_Enable d8 1 (FIR_Enable d8 1 st4)).mem (ctrlAddr d8) =
      (FIR_Enable d8 1 st4).mem (ctrlAddr d8) ∧
    ((FIR_Enable d8 1 (FIR_Enable d8 1 st4)).mem (ctrlAddr d8)).testBit 2 =
      (st4.mem (ctrlAddr d8)).testBit 2 :=
  ⟨(fir_C7_enable_idem d8 st4 1).1 (ctrlAddr d8),
   (fir_C7_enable_idem d8 st4 1).2.2 2 (by decide) (by decide)⟩

/-- Claim C8: FIR_Init fails exactly on an absent descriptor, with no MMIO
access and no descriptor write on failure; on success it returns
XST_SUCCESS with the descriptor populated from the arguments and the ready
flag set, with no validation of base address or tap count. -/
theorem fir_C8_init_status (b n : Nat) (s : St) :
    FIR_Init none b n s = (XST_FAILURE, none, s) ∧
    (∀ old : FirStereo_Config,
      (FIR_Init (some old) b n s).1 = XST_SUCCESS ∧
      (FIR_Init (some old) b n s).2.1 =
        some { BaseAddress := b, NumTaps := n,
               IsReady := XIL_COMPONENT_IS_READY }) ∧
    (∀ p : Option FirStereo_Config,
      (FIR_Init p b n s).1 = XST_FAILURE ↔ p = none) ∧
    XST_SUCCESS ≠ XST_FAILURE := by
  refine ⟨rfl, fun old => ⟨rfl, rfl⟩, ?_, by decide⟩
  intro p
  cases p with
  | none => simp [FIR_Init]
  | some old => simp [FIR_Init, XST_SUCCESS, XST_FAILURE]

/-- Witness for C8 at base 0x40000000, 8 taps. -/
theorem fir_C8_init_status_witness :
    FIR_Init none 0x40000000 8 st0 = (XST_FAILURE, none, st0) ∧
    (FIR_Init (some d2) 0x40000000 8 st0).1 = XST_SUCCESS :=
  ⟨(fir_C8_init_status 0x40000000 8 st0).1,
   ((fir_C8_init_status 0x40000000 8 st0).2.1 d2).1⟩

/-- Counterexample to C3: with CTRL reading 4 (a reserved bit set),
FIR_Enable(1) stores 5 to CTRL, and bit 2 of 5 is not zero — the driver
does not force bits 2..31 of the stored CTRL value to zero. -/
theorem fir_C3_counterexample :
    (FIR_Enable d8 1 st4).log = [Ev.rd 0 4, Ev.wr 0 5] ∧
    Nat.testBit 5 2 = true := by
  decide

/-- Amended C3: every CTRL value stored by a read-modify-write of
FIR_Enable or FIR_SoftReset carries bits 2..31 of the value returned by
the preceding CTRL read unchanged (reserved bits are preserved, not
masked to zero). -/
theorem fir_C3_amended (inst : FirStereo_Config) (s : St) (en j : Nat)
    (h2 : 2 ≤ j) (h32 : j < 32) :
    (∀ v, Ev.wr (ctrlAddr inst) v ∈ (FIR_Enable inst en s).log.drop s.log.length →
      v.testBit j = (ctrlRead inst s).testBit j) ∧
    (∀ v, Ev.wr (ctrlAddr inst) v ∈ (FIR_SoftReset inst s).log.drop s.log.length →
      v.testBit j = (ctrlRead inst s).testBit j) := by
  constructor
  · intro v hv
    rw [FIR_Enable_eq] at hv
    simp [List.drop_left] at hv
    subst hv
    exact enWrite_testBit_high en _ h2 h32
  · intro v hv
    rw [FIR_SoftReset_eq] at hv
    simp [List.drop_left] at hv
    rcases hv with h | h <;> subst h
    · exact orClear_testBit_high _ h2 h32
    · exact andNotClear_testBit_high _ h2 h32

/-- Witness for the amended C3: the value 5 stored by FIR_Enable(1) from
CTRL = 4 agrees with the read value 4 on bit 2. -/
theorem fir_C3_amended_witness :
    Nat.testBit 5 2 = (ctrlRead d8 st4).testBit 2 :=
  (fir_C3_amended d8 st4 1 2 (by decide) (by decide)).1 5 (by decide)

/-- Claim C1: FIR_LoadConfig on a ready descriptor samples the ENABLE bit,
disables the core (other CTRL bits preserved), writes exact zero to the
coefficient slots with indices in [min(L,N), N), writes the supplied
values to indices [0, min(L,N)) in ascending index order, and issues a
final re-enabling CTRL write iff ENABLE was high at entry; no soft reset
and no other MMIO access occurs. -/
theorem fir_C1_loadconfig_sequence (inst : FirStereo_Config)
    (CoeffArray : List Int) (L : Nat) (s : St)
    (hready : inst.IsReady = XIL_COMPONENT_IS_READY)
    (hlen : L ≤ CoeffArray.length) :
    (FIR_LoadConfig inst CoeffArray L s).log =
      s.log ++
      [Ev.rd (ctrlAddr inst) (ctrlRead inst s),
       Ev.rd (ctrlAddr inst) (ctrlRead inst s),
       Ev.wr (ctrlAddr inst) (enWrite 0 (ctrlRead inst s))] ++
      (List.range' (min L inst.NumTaps) (inst.NumTaps - min L inst.NumTaps)).map
        (fun k => Ev.wr (coeffAddr inst k) 0) ++
      (List.range' 0 (min L inst.NumTaps)).map
        (fun k => Ev.wr (coeffAddr inst k) (u32OfInt (CoeffArray.getD k 0))) ++
      (if ctrlRead inst s &&& FIR_CTRL_ENABLE_BIT ≠ 0 then
        [Ev.rd (ctrlAddr inst) (enWrite 0 (ctrlRead inst s)),
         Ev.wr (ctrlAddr inst) (enWrite 1 (enWrite 0 (ctrlRead inst s)))]
       else ([] : List Ev)) :=
  FIR_LoadConfig_log inst CoeffArray L s

/-- Witness for C1: scenario S3 — a 4-tap ready descriptor with CTRL = 1
loading [0x1111, 0x2222, 0x3333] of length 3: disable write, zero write to
slot 3, the three supplied values in order, re-enable write. -/
theorem fir_C1_loadconfig_sequence_witness :
    (FIR_LoadConfig d4 [0x1111, 0x2222, 0x3333] 3 st1).log =
      [Ev.rd 0 1, Ev.rd 0 1, Ev.wr 0 0,
       Ev.wr 28 0,
       Ev.wr 16 0x1111, Ev.wr 20 0x2222, Ev.wr 24 0x3333,
       Ev.rd 0 0, Ev.wr 0 1] := by
  rw [fir_C1_loadconfig_sequence d4 [0x1111, 0x2222, 0x3333] 3 st1
    (by decide) (by decide)]
  decide

/-- Counterexample to C2: loading one coefficient into a 2-tap enabled
descriptor, the zero-padding write (slot 1, address 0x14) precedes the
supplied-value write (slot 0, address 0x10); the claimed order, supplied
values before zero padding, does not match the log. -/
theorem fir_C2_counterexample :
    (FIR_LoadConfig d2 [0x1111] 1 st1).log =
      [Ev.rd 0 1, Ev.rd 0 1, Ev.wr 0 0, Ev.wr 20 0, Ev.wr 16 0x1111,
       Ev.rd 0 0, Ev.wr 0 1] ∧
    (FIR_LoadConfig d2 [0x1111] 1 st1).log ≠
      [Ev.rd 0 1, Ev.rd 0 1, Ev.wr 0 0, Ev.wr 16 0x1111, Ev.wr 20 0,
       Ev.rd 0 0, Ev.wr 0 1] := by
  constructor
  · rw [FIR_LoadConfig_log]
    decide
  · rw [FIR_LoadConfig_log]
    decide

/-- Amended C2: for L < N the MMIO log of FIR_LoadConfig(A, L) shows, in
order, (a) the CTRL reads and the ENABLE=0 CTRL write, (b) the zero writes
to indices [L, N), (c) the supplied-value writes to indices [0, L) in
index order, (d) a re-enabling CTRL write iff ENABLE was high at entry —
the zero-padding writes precede the supplied-value writes. -/
theorem fir_C2_amended (inst : FirStereo_Config) (CoeffArray : List Int)
    (L : Nat) (s : St) (hL : L < inst.NumTaps) (hlen : L ≤ CoeffArray.length) :
    (FIR_LoadConfig inst CoeffArray L s).log =
      s.log ++
      [Ev.rd (ctrlAddr inst) (ctrlRead inst s),
       Ev.rd (ctrlAddr inst) (ctrlRead inst s),
       Ev.wr (ctrlAddr inst) (enWrite 0 (ctrlRead inst s))] ++
      (List.range' L (inst.NumTaps - L)).map
        (fun k => Ev.wr (coeffAddr inst k) 0) ++
      (List.range' 0 L).map
        (fun k => Ev.wr (coeffAddr inst k) (u32OfInt (CoeffArray.getD k 0))) ++
      (if ctrlRead inst s &&& FIR_CTRL_ENABLE_BIT ≠ 0 then
        [Ev.rd (ctrlAddr inst) (enWrite 0 (ctrlRead inst s)),
         Ev.wr (ctrlAddr inst) (enWrite 1 (enWrite 0 (ctrlRead inst s)))]
       else ([] : List Ev)) := by
  have hmin : min L inst.NumTaps = L := by omega
  have h := FIR_LoadConfig_log inst CoeffArray L s
  rw [hmin] at h
  exact h

/-- Witness for the amended C2: a 4-tap disabled descriptor loading one
value; the three zero writes to slots 1..3 precede the value write. -/
theorem fir_C2_amended_witness :
    (FIR_LoadConfig d4 [0x7FFF] 1 st0).log =
      [Ev.rd 0 0, Ev.rd 0 0, Ev.wr 0 0,
       Ev.wr 20 0, Ev.wr 24 0, Ev.wr 28 0, Ev.wr 16 0x7FFF] := by
  rw [fir_C2_amended d4 [0x7FFF] 1 st0 (by decide) (by decide)]
  decide

/-- Counterexample to C9: a successful FIR_Init issues two CTRL reads, one
before the ENABLE=0 write and one before the CLEAR pulse; the S1 trace
with a single CTRL read does not match the log. -/
theorem fir_C9_counterexample :
    ((FIR_Init (some d2) 0x40000000 8 st0).2.2).log =
      [Ev.rd 0x40000000 0, Ev.wr 0x40000000 0, Ev.rd 0x40000000 0,
       Ev.wr 0x40000000 2, Ev.wr 0x40000000 0] ∧
    ((FIR_Init (some d2) 0x40000000 8 st0).2.2).log ≠
      [Ev.rd 0x40000000 0, Ev.wr 0x40000000 0, Ev.wr 0x40000000 2,
       Ev.wr 0x40000000 0] := by
  decide

/-- Amended C9: a successful FIR_Init produces exactly a CTRL read, a CTRL
write forcing ENABLE=0, a second CTRL read, then the two CLEAR-pulse
writes, and no other MMIO access; with CTRL initially reading 0 the three
written values are 0x0, 0x2, 0x0 and the call returns success. -/
theorem fir_C9_amended (old : FirStereo_Config) (b n : Nat) (s : St) :
    ((FIR_Init (some old) b n s).2.2).log =
      s.log ++
      [Ev.rd (ctrlAddr (initCfg b n)) (ctrlRead (initCfg b n) s),
       Ev.wr (ctrlAddr (initCfg b n)) (enWrite 0 (ctrlRead (initCfg b n) s)),
       Ev.rd (ctrlAddr (initCfg b n)) (enWrite 0 (ctrlRead (initCfg b n) s)),
       Ev.wr (ctrlAddr (initCfg b n))
         (enWrite 0 (ctrlRead (initCfg b n) s) ||| FIR_CTRL_CLEAR_BIT),
       Ev.wr (ctrlAddr (initCfg b n))
         (enWrite 0 (ctrlRead (initCfg b n) s) &&& u32Not FIR_CTRL_CLEAR_BIT)] ∧
    (ctrlRead (initCfg b n) s = 0 →
      ((FIR_Init (some old) b n s).2.2).log =
        s.log ++ [Ev.rd (ctrlAddr (initCfg b n)) 0,
                  Ev.wr (ctrlAddr (initCfg b n)) 0,
                  Ev.rd (ctrlAddr (initCfg b n)) 0,
                  Ev.wr (ctrlAddr (initCfg b n)) 2,
                  Ev.wr (ctrlAddr (initCfg b n)) 0] ∧
      (FIR_Init (some old) b n s).1 = XST_SUCCESS) := by
  refine ⟨(FIR_Init_state old b n s).1, ?_⟩
  intro h0
  refine ⟨?_, rfl⟩
  rw [(FIR_Init_state old b n s).1, h0,
      (by decide : enWrite 0 0 = 0),
      (by decide : (0 : Nat) ||| FIR_CTRL_CLEAR_BIT = 2),
      (by decide : (0 : Nat) &&& u32Not FIR_CTRL_CLEAR_BIT = 0)]

/-- Witness for the amended C9 at base 0x40000000 with all-zero memory. -/
theorem fir_C9_amended_witness :
    ((FIR_Init (some d2) 0x40000000 8 st0).2.2).log =
      st0.log ++ [Ev.rd (ctrlAddr (initCfg 0x40000000 8)) 0,
                  Ev.wr (ctrlAddr (initCfg 0x40000000 8)) 0,
                  Ev.rd (ctrlAddr (initCfg 0x40000000 8)) 0,
                  Ev.wr (ctrlAddr (initCfg 0x40000000 8)) 2,
                  Ev.wr (ctrlAddr (initCfg 0x40000000 8)) 0] ∧
    (FIR_Init (some d2) 0x40000000 8 st0).1 = XST_SUCCESS :=
  (fir_C9_amended d2 0x40000000 8 st0).2 (by decide)

/-- Claim C10: the driver never leaves the CLEAR bit latched: after
FIR_Init the CLEAR bit of CTRL is 0, and every API operation started from
a state with CLEAR = 0 ends with CLEAR = 0, so CLEAR = 0 at operation
boundaries is an invariant of every post-init reachable state. -/
theorem fir_C10_clear_invariant (inst : FirStereo_Config) (s : St) :
    (∀ (old : FirStereo_Config) (b n : Nat),
      (((FIR_Init (some old) b n s).2.2).mem (ctrlAddr (initCfg b n))).testBit 1 =
        false) ∧
    ((s.mem (ctrlAddr inst)).testBit 1 = false →
      (∀ en, ((FIR_Enable inst en s).mem (ctrlAddr inst)).testBit 1 = false) ∧
      ((FIR_SoftReset inst s).mem (ctrlAddr inst)).testBit 1 = false ∧
      (∀ i v, ((FIR_SetCoeff inst i v s).mem (ctrlAddr inst)).testBit 1 = false) ∧
      (∀ i, (((FIR_GetCoeff inst i s).1).mem (ctrlAddr inst)).testBit 1 = false) ∧
      (∀ arr L, ((FIR_LoadConfig inst arr L s).mem (ctrlAddr inst)).testBit 1 =
        false)) := by
  constructor
  · intro old b n
    rw [(FIR_Init_state old b n s).2]
    exact andNotClear_testBit_one _
  · intro h
    have hc : (ctrlRead inst s).testBit 1 = false := by
      unfold ctrlRead
      rw [testBit_mod32 _ 1 (by norm_num)]
      exact h
    refine ⟨?_, ?_, ?_, ?_, ?_⟩
    · intro en
      rw [FIR_Enable_mem_ctrl, enWrite_testBit_one]
      exact hc
    · rw [FIR_SoftReset_eq]
      show (if ctrlAddr inst = ctrlAddr inst
        then ctrlRead inst s &&& u32Not FIR_CTRL_CLEAR_BIT
        else s.mem (ctrlAddr inst)).testBit 1 = false
      rw [if_pos rfl]
      exact andNotClear_testBit_one _
    · intro i v
      rcases lt_or_ge i inst.NumTaps with hi | hi
      · rw [FIR_SetCoeff_eq inst v s hi]
        show (if ctrlAddr inst = coeffAddr inst i then u32OfInt v
          else s.mem (ctrlAddr inst)).testBit 1 = false
        rw [if_neg (ctrlAddr_ne_coeffAddr inst i)]
        exact h
      · rw [FIR_SetCoeff_oob inst v s hi]
        exact h
    · intro i
      have hm : ((FIR_GetCoeff inst i s).1).mem = s.mem := by
        unfold FIR_GetCoeff
        split
        · rfl
        · rfl
      rw [hm]
      exact h
    · intro arr L
      rw [FIR_LoadConfig_mem_ctrl]
      split
      · rw [enWrite_testBit_one, enWrite_testBit_one]
        exact hc
      · rw [enWrite_testBit_one]
        exact hc

/-- Witness for C10: CLEAR is 0 after a concrete init, after a soft reset
from an enabled state, and after an empty bulk load from an enabled
state. -/
theorem fir_C10_clear_invariant_witness :
    (((FIR_Init (some d2) 0 8 st0).2.2).mem (ctrlAddr (initCfg 0 8))).testBit 1 =
      false ∧
    ((FIR_SoftReset d8 st1).mem (ctrlAddr d8)).testBit 1 = false ∧
    ((FIR_LoadConfig d8 [] 0 st1).mem (ctrlAddr d8)).testBit 1 = false :=
  ⟨(fir_C10_clear_invariant d8 st0).1 d2 0 8,
   ((fir_C10_clear_invariant d8 st1).2 (by decide)).2.1,
   ((fir_C10_clear_invariant d8 st1).2 (by decide)).2.2.2.2 [] 0⟩

end FirStereo
